import Mathlib

/-!
# Verification of the benaloh-challenge crate

A shallow embedding of `src/lib.rs` and `src/rng.rs` of the
`benaloh-challenge` Rust crate, together with proofs of the specified
properties of the commit / challenge / finalize state machine and of the
recording / playback randomness sources.

Bytes are modelled as `Nat` (the code treats random bytes as opaque values
and never does arithmetic on them).  Rust's `&mut` state is modelled by
explicit state passing; a Rust `panic!` is modelled as `Option.none`;
fallible calls return `Except`.
-/

namespace Benaloh

/-- The crate's error enum (`src/lib.rs`, `pub enum Error`).  It has exactly
one variant: `VerificationFailed`. -/
inductive Error where
  | VerificationFailed
deriving DecidableEq

/-- The `rand_core::Error` produced by `PlaybackRng::try_fill_bytes` with the
message "commitment-check read more RNG values than commitment".  It is a
library-level error, distinct from the crate's own `Error` enum. -/
inductive RngError where
  | insufficientRandomness
deriving DecidableEq

/-- The wrapped true randomness source (`&mut R` with `R: RngCore + CryptoRng`
in the Rust code).  Its `fill_bytes` is infallible, so it is modelled as an
infinite byte stream together with a cursor. -/
structure InnerRng where
  stream : Nat → Nat
  pos : Nat

/-- `RngCore::fill_bytes` of the wrapped source: produce `n` fresh bytes and
advance the cursor. -/
def InnerRng.fill_bytes (self : InnerRng) (n : Nat) : List Nat × InnerRng :=
  ((List.range n).map (fun i => self.stream (self.pos + i)), ⟨self.stream, self.pos + n⟩)

/-- `Zeroize::zeroize` on a byte buffer: every byte of the buffer's memory is
overwritten with `0`.  (The zeroize crate additionally resets the `Vec`
length; the claims only inspect the overwritten memory, which this models.) -/
def zeroize (v : List Nat) : List Nat :=
  List.replicate v.length 0

/-- `RecordingRng` (`src/rng.rs`): wraps a real RNG and records every random
byte passed through to the caller. -/
structure RecordingRng where
  inner : InnerRng
  recorded : List Nat

/-- `RecordingRng::new`. -/
def RecordingRng.new (rng : InnerRng) : RecordingRng :=
  ⟨rng, []⟩

/-- `RecordingRng::fill_bytes`: delegate to the wrapped source, then append the
returned bytes to `recorded` (`self.recorded.extend_from_slice(dest)`). -/
def RecordingRng.fill_bytes (self : RecordingRng) (n : Nat) : List Nat × RecordingRng :=
  ((self.inner.fill_bytes n).1,
   ⟨(self.inner.fill_bytes n).2, self.recorded ++ (self.inner.fill_bytes n).1⟩)

/-- `RecordingRng::fetch_recorded`: `drain(..)` the whole record (leaving the
internal buffer empty) and return it; the subsequent `zeroize` acts on the
already-drained (empty) vector. -/
def RecordingRng.fetch_recorded (self : RecordingRng) : List Nat × RecordingRng :=
  (self.recorded, ⟨self.inner, []⟩)

/-- `PlaybackRng` (`src/rng.rs`): a static vector of bytes that masquerades as
an RNG, serving bytes from the front of `recorded`. -/
structure PlaybackRng where
  recorded : List Nat
deriving DecidableEq

/-- `PlaybackRng::new`. -/
def PlaybackRng.new (recorded : List Nat) : PlaybackRng :=
  ⟨recorded⟩

/-- The buffer as it stands after the padding step of
`PlaybackRng::fill_bytes`: if fewer than `dest.len()` bytes remain, the code
appends `vec![0u8; dest.len()]` — `n` zero bytes, not just the shortfall. -/
def PlaybackRng.padded (self : PlaybackRng) (n : Nat) : List Nat :=
  if self.recorded.length < n then self.recorded ++ List.replicate n 0 else self.recorded

/-- `PlaybackRng::fill_bytes` (unchecked fill): pad with zeros if short, then
`drain(..dest.len())` into `dest`. Returns the filled bytes and the updated
source. -/
def PlaybackRng.fill_bytes (self : PlaybackRng) (n : Nat) : List Nat × PlaybackRng :=
  ((self.padded n).take n, ⟨(self.padded n).drop n⟩)

/-- `PlaybackRng::try_fill_bytes` (checked fill): error out if fewer bytes
remain than requested, otherwise delegate to `fill_bytes`. -/
def PlaybackRng.try_fill_bytes (self : PlaybackRng) (n : Nat) :
    Except RngError (List Nat × PlaybackRng) :=
  if self.recorded.length < n then Except.error RngError.insufficientRandomness
  else Except.ok (self.fill_bytes n)

/-- An untrusted computation, i.e. the Rust closure
`C: Fn(&mut RecordingRng<R>) -> Vec<u8>` (resp. `Fn(&mut PlaybackRng) -> Vec<u8>`
on the verifier side).  It interacts with its randomness source only through
the `fill_bytes` interface (`next_u32`/`next_u64` are implemented via fill, and
`RecordingRng::try_fill_bytes` simply delegates to `fill_bytes`), drawing a
chosen number of bytes at each step, possibly adaptively, and finally returns
a byte vector. -/
inductive Comp where
  | ret (out : List Nat)
  | fill (n : Nat) (k : List Nat → Comp)

/-- Run a computation against a `RecordingRng` (the committing device's path). -/
def runRecording : Comp → RecordingRng → List Nat × RecordingRng
  | Comp.ret out, rng => (out, rng)
  | Comp.fill n k, rng => runRecording (k (rng.fill_bytes n).1) (rng.fill_bytes n).2

/-- Run a computation against a `PlaybackRng` using the unchecked
`fill_bytes` (the verifying device's path inside `check_commitment`). -/
def runPlayback : Comp → PlaybackRng → List Nat × PlaybackRng
  | Comp.ret out, rng => (out, rng)
  | Comp.fill n k, rng => runPlayback (k (rng.fill_bytes n).1) (rng.fill_bytes n).2

/-- Total number of bytes a computation requests when run against a given
`PlaybackRng`. -/
def playbackDraws : Comp → PlaybackRng → Nat
  | Comp.ret _, _ => 0
  | Comp.fill n k, rng => n + playbackDraws (k (rng.fill_bytes n).1) (rng.fill_bytes n).2

/-- The output a computation produces when its fill requests are answered by
the wrapped true source `inner` (pure characterisation of the recording run). -/
def compOut : Comp → InnerRng → List Nat
  | Comp.ret out, _ => out
  | Comp.fill n k, inner => compOut (k (inner.fill_bytes n).1) (inner.fill_bytes n).2

/-- The bytes a computation draws, in draw order, when its fill requests are
answered by the wrapped true source `inner`.  This is the spec-side
characterisation of "the bytes the computation drew from its RecordingSource
during that commit", to be compared against the code's `cached_random`. -/
def drawnBytes : Comp → InnerRng → List Nat
  | Comp.ret _, _ => []
  | Comp.fill n k, inner =>
      (inner.fill_bytes n).1 ++ drawnBytes (k (inner.fill_bytes n).1) (inner.fill_bytes n).2

/-- The state of the wrapped true source after answering all of a
computation's fill requests. -/
def runInner : Comp → InnerRng → InnerRng
  | Comp.ret _, inner => inner
  | Comp.fill n k, inner => runInner (k (inner.fill_bytes n).1) (inner.fill_bytes n).2

/-- `Challenge` (`src/lib.rs`): owns a `RecordingRng`, the untrusted
computation, the latest `result` and `cached_random`, and the `committed`
flag. -/
structure Challenge where
  rng : RecordingRng
  computation : Comp
  result : List Nat
  cached_random : List Nat
  committed : Bool

/-- `Challenge::new`: wrap the RNG in a fresh `RecordingRng`; empty buffers;
not committed. -/
def Challenge.new (rng : InnerRng) (untrusted_computation : Comp) : Challenge :=
  { rng := RecordingRng.new rng
    computation := untrusted_computation
    result := []
    cached_random := []
    committed := false }

/-- `Challenge::commit`: run the computation against the internal
`RecordingRng`, drain the record into `cached_random`, hash the result
(`Digest::update` then `finalize_fixed_reset`, modelled by the pure digest
function `hash`), set `committed`, and return the commitment.  The digest is
reset by `finalize_fixed_reset`, so each commit hashes exactly `result`. -/
def Challenge.commit (self : Challenge) (hash : List Nat → List Nat) :
    List Nat × Challenge :=
  let st := runRecording self.computation self.rng
  (hash st.1,
   { rng := (RecordingRng.fetch_recorded st.2).2
     computation := self.computation
     result := st.1
     cached_random := (RecordingRng.fetch_recorded st.2).1
     committed := true })

/-- `Challenge::challenge`: panics (modelled as `none`; the spec's
ProtocolSequenceViolation) when not committed.  Otherwise zeroizes `result`
in place, swaps `cached_random` with a fresh empty vector, clears the
`committed` flag, and returns the swapped-out randomness together with the
updated structure. -/
def Challenge.challenge (self : Challenge) : Option (List Nat × Challenge) :=
  if !self.committed then none
  else
    some (self.cached_random,
      { self with
          result := zeroize self.result
          cached_random := []
          committed := false })

/-- `Challenge::into_results`: panics (modelled as `none`) when not committed.
Otherwise zeroizes `cached_random` in place and returns `result`.  The second
component of the returned pair models the consumed structure's memory at the
moment of return (`result` has been moved out to the caller; `cached_random`
has been zeroized). -/
def Challenge.into_results (self : Challenge) : Option (List Nat × Challenge) :=
  if !self.committed then none
  else some (self.result, { self with cached_random := zeroize self.cached_random })

/-- `check_commitment` (`src/lib.rs`): build a `PlaybackRng` from the revealed
randomness, run the computation against it, hash the result, and compare with
the received commitment. -/
def check_commitment (hash : List Nat → List Nat) (commitment : List Nat)
    (revealed_random : List Nat) (untrusted_computation : Comp) : Except Error Unit :=
  if hash (runPlayback untrusted_computation (PlaybackRng.new revealed_random)).1 ≠ commitment
  then Except.error Error.VerificationFailed
  else Except.ok ()

/-- A concrete wrapped randomness source used to instantiate theorems: an
incrementing byte stream starting at 1. -/
def innerW : InnerRng :=
  ⟨fun i => i + 1, 0⟩

/-- A concrete committed `Challenge` state used to instantiate theorems. -/
def chW : Challenge :=
  { rng := ⟨innerW, []⟩
    computation := Comp.ret []
    result := [3, 4]
    cached_random := [7]
    committed := true }

/-! ## General lemmas about the runs -/

theorem InnerRng.fill_bytes_length (inner : InnerRng) (n : Nat) :
    (inner.fill_bytes n).1.length = n := by
  simp [InnerRng.fill_bytes]

/-- Characterisation of a recording run: the output is `compOut`, the raw
source advances to `runInner`, and the record grows by exactly `drawnBytes`,
appended after whatever was already recorded. -/
theorem runRecording_eq : ∀ (comp : Comp) (inner : InnerRng) (r0 : List Nat),
    runRecording comp ⟨inner, r0⟩
      = (compOut comp inner, ⟨runInner comp inner, r0 ++ drawnBytes comp inner⟩) := by
  intro comp
  induction comp with
  | ret out => intro inner r0; simp [runRecording, compOut, runInner, drawnBytes]
  | fill n k ih =>
      intro inner r0
      simp [runRecording, compOut, runInner, drawnBytes, RecordingRng.fill_bytes, ih]

/-- `PlaybackRng::fill_bytes` with an exactly-long-enough prefix: no padding,
the prefix is served and the rest remains. -/
theorem PlaybackRng.fill_bytes_exact (dest rest : List Nat) (n : Nat)
    (h : dest.length = n) :
    PlaybackRng.fill_bytes ⟨dest ++ rest⟩ n = (dest, ⟨rest⟩) := by
  have hnlt : ¬ (dest ++ rest).length < n := by
    simp [List.length_append, h]
  simp only [PlaybackRng.fill_bytes, PlaybackRng.padded, if_neg hnlt,
    List.take_left' h, List.drop_left' h]

/-- Replay correctness: running a computation against a `PlaybackRng` loaded
with exactly the bytes it drew from the true source reproduces the output of
the recording run and consumes exactly those bytes. -/
theorem runPlayback_replay : ∀ (comp : Comp) (inner : InnerRng) (extra : List Nat),
    runPlayback comp ⟨drawnBytes comp inner ++ extra⟩ = (compOut comp inner, ⟨extra⟩) := by
  intro comp
  induction comp with
  | ret out => intro inner extra; simp [runPlayback, drawnBytes, compOut]
  | fill n k ih =>
      intro inner extra
      have hfb :
          PlaybackRng.fill_bytes ⟨drawnBytes (Comp.fill n k) inner ++ extra⟩ n
            = ((inner.fill_bytes n).1,
               ⟨drawnBytes (k (inner.fill_bytes n).1) (inner.fill_bytes n).2 ++ extra⟩) := by
        rw [show drawnBytes (Comp.fill n k) inner ++ extra
              = (inner.fill_bytes n).1
                ++ (drawnBytes (k (inner.fill_bytes n).1) (inner.fill_bytes n).2 ++ extra) by
            simp [drawnBytes]]
        exact PlaybackRng.fill_bytes_exact _ _ _ (InnerRng.fill_bytes_length inner n)
      rw [runPlayback, hfb]
      exact ih _ _ _

/-! ## Claim theorems -/

/-- C7: checked fill on a `ReplaySource` (`PlaybackRng::try_fill_bytes`) fails
with `InsufficientRandomness` if and only if fewer bytes remain than
requested; on success it returns exactly the first `n` remaining bytes, in
order, consuming them from the front. -/
theorem try_fill_bytes_checked (p : PlaybackRng) (n : Nat) :
    (p.try_fill_bytes n = Except.error RngError.insufficientRandomness
      ↔ p.recorded.length < n)
    ∧ (n ≤ p.recorded.length →
        p.try_fill_bytes n = Except.ok (p.recorded.take n, ⟨p.recorded.drop n⟩)) := by
  by_cases hlt : p.recorded.length < n
  · exact ⟨⟨fun _ => hlt, fun _ => by simp [PlaybackRng.try_fill_bytes, hlt]⟩,
      fun h => absurd hlt (Nat.not_lt.mpr h)⟩
  · refine ⟨⟨fun h => ?_, fun h => absurd h hlt⟩, fun _ => ?_⟩
    · simp [PlaybackRng.try_fill_bytes, hlt] at h
    · simp [PlaybackRng.try_fill_bytes, hlt, PlaybackRng.fill_bytes, PlaybackRng.padded]

/-- Witness for C7: a concrete successful checked fill. -/
theorem try_fill_bytes_checked_instance :
    PlaybackRng.try_fill_bytes ⟨[1, 2, 3]⟩ 2 = Except.ok ([1, 2], ⟨[3]⟩) :=
  (try_fill_bytes_checked ⟨[1, 2, 3]⟩ 2).2 (by decide)

/-- C8: unchecked fill on a `ReplaySource` (`PlaybackRng::fill_bytes`) never
fails: it always returns exactly `n` bytes, and when only `r < n` bytes
remain it returns those `r` bytes followed by `n - r` zero bytes of padding. -/
theorem fill_bytes_zero_pads (p : PlaybackRng) (n : Nat) :
    ((p.fill_bytes n).1.length = n)
    ∧ (p.recorded.length < n →
        (p.fill_bytes n).1 = p.recorded ++ List.replicate (n - p.recorded.length) 0) := by
  constructor
  · by_cases hlt : p.recorded.length < n <;>
      simp only [PlaybackRng.fill_bytes, PlaybackRng.padded, hlt, if_true, if_false,
        List.length_take, List.length_append, List.length_replicate] <;> omega
  · intro hlt
    simp only [PlaybackRng.fill_bytes, PlaybackRng.padded, if_pos hlt,
      List.take_append_eq_append_take, List.take_replicate,
      List.take_of_length_le (Nat.le_of_lt hlt)]
    rw [Nat.min_eq_left (Nat.sub_le n p.recorded.length)]

/-- Witness for C8: filling 5 bytes from a 2-byte buffer. -/
theorem fill_bytes_zero_pads_instance :
    (PlaybackRng.fill_bytes ⟨[7, 8]⟩ 5).1 = [7, 8] ++ List.replicate (5 - 2) 0 :=
  (fill_bytes_zero_pads ⟨[7, 8]⟩ 5).2 (by decide)

/-- C10: when `PlaybackRng::fill_bytes` is asked for `n` bytes with only
`r < n` remaining, the internal buffer afterwards holds `r` zero bytes (not
nothing), so a subsequent `try_fill_bytes` for `m ≤ r` bytes succeeds and
returns zeros rather than failing with `InsufficientRandomness`. -/
theorem fill_bytes_leaves_zeros (p : PlaybackRng) (n m : Nat)
    (hlt : p.recorded.length < n) (hm : m ≤ p.recorded.length) :
    (p.fill_bytes n).2.recorded = List.replicate p.recorded.length 0
    ∧ (p.fill_bytes n).2.try_fill_bytes m
        = Except.ok (List.replicate m 0, ⟨List.replicate (p.recorded.length - m) 0⟩) := by
  have hrec : (p.fill_bytes n).2.recorded = List.replicate p.recorded.length 0 := by
    simp only [PlaybackRng.fill_bytes, PlaybackRng.padded, if_pos hlt,
      List.drop_append_eq_append_drop, List.drop_replicate,
      List.drop_eq_nil_of_le (Nat.le_of_lt hlt), List.nil_append]
    congr 1
    omega
  refine ⟨hrec, ?_⟩
  have hq : (p.fill_bytes n).2 = ⟨List.replicate p.recorded.length 0⟩ := by
    cases hq2 : (p.fill_bytes n).2
    simp_all
  rw [hq]
  have hm2 : ¬ ((List.replicate p.recorded.length (0 : Nat)).length < m) := by
    simp only [List.length_replicate]
    omega
  simp only [PlaybackRng.try_fill_bytes, PlaybackRng.fill_bytes, PlaybackRng.padded,
    if_neg hm2, List.take_replicate, List.drop_replicate,
    Nat.min_eq_left hm]

/-- Witness for C10: a 3-byte buffer over-drained by 5 leaves 3 zeros and a
subsequent checked fill of 2 bytes succeeds with zeros. -/
theorem fill_bytes_leaves_zeros_instance :
    (PlaybackRng.fill_bytes ⟨[1, 2, 3]⟩ 5).2.recorded = List.replicate 3 0
    ∧ (PlaybackRng.fill_bytes ⟨[1, 2, 3]⟩ 5).2.try_fill_bytes 2
        = Except.ok (List.replicate 2 0, ⟨List.replicate (3 - 2) 0⟩) :=
  fill_bytes_leaves_zeros ⟨[1, 2, 3]⟩ 5 2 (by decide) (by decide)

/-- C3: `challenge` and `into_results` fail fatally (a panic, modelled as
`none`, the spec's ProtocolSequenceViolation) exactly when the `committed`
flag is false — in particular on a freshly constructed Challenge — and both
return a value whenever `committed` is true. -/
theorem challenge_ordering_invariant :
    (∀ ch : Challenge,
      ch.challenge.isSome = ch.committed ∧ ch.into_results.isSome = ch.committed)
    ∧ (∀ (rng : InnerRng) (comp : Comp),
        (Challenge.new rng comp).challenge = none
        ∧ (Challenge.new rng comp).into_results = none) := by
  constructor
  · intro ch
    cases h : ch.committed <;>
      simp [Challenge.challenge, Challenge.into_results, h]
  · intro rng comp
    simp [Challenge.challenge, Challenge.into_results, Challenge.new]

/-- Specialisation of replay correctness to an exactly-loaded source. -/
theorem runPlayback_replay_nil (comp : Comp) (inner : InnerRng) :
    runPlayback comp ⟨drawnBytes comp inner⟩ = (compOut comp inner, ⟨[]⟩) := by
  have h := runPlayback_replay comp inner []
  simpa using h

/-- C4: after every `commit` (from either state), `cached_random` equals
exactly the bytes the computation drew from the internal `RecordingRng`
during that commit, in draw order; the record is left empty again, and it
starts empty at construction, so no earlier commit's bytes are included. -/
theorem cached_random_eq_drawn :
    (∀ (rng : InnerRng) (comp : Comp), (Challenge.new rng comp).rng.recorded = [])
    ∧ ∀ (ch : Challenge) (hash : List Nat → List Nat), ch.rng.recorded = [] →
        ((ch.commit hash).2.cached_random = drawnBytes ch.computation ch.rng.inner
         ∧ (ch.commit hash).2.rng.recorded = []) := by
  constructor
  · intro rng comp
    rfl
  · intro ch hash h
    obtain ⟨⟨inner, recorded⟩, comp, result, cached, cflag⟩ := ch
    simp only at h
    subst h
    simp [Challenge.commit, runRecording_eq, RecordingRng.fetch_recorded]

/-- Witness for C4: a concrete commit caches exactly the drawn bytes. -/
theorem cached_random_eq_drawn_instance :
    ((Challenge.new innerW (Comp.fill 3 Comp.ret)).commit (fun l => l)).2.cached_random
      = drawnBytes (Comp.fill 3 Comp.ret) innerW :=
  (cached_random_eq_drawn.2 (Challenge.new innerW (Comp.fill 3 Comp.ret)) (fun l => l) rfl).1

/-- C5: on a committed Challenge, `challenge` returns exactly the cached
randomness, and afterwards `result` is overwritten with zeros in place,
`cached_random` is empty, and `committed` is false. -/
theorem challenge_reveals_and_erases (ch : Challenge) (h : ch.committed = true) :
    ch.challenge = some (ch.cached_random,
      { ch with
          result := List.replicate ch.result.length 0
          cached_random := []
          committed := false }) := by
  simp [Challenge.challenge, h, zeroize]

/-- Witness for C5: challenging a concrete committed state. -/
theorem challenge_reveals_and_erases_instance :
    chW.challenge = some ([7],
      { chW with
          result := List.replicate 2 0
          cached_random := []
          committed := false }) :=
  challenge_reveals_and_erases chW rfl

/-- C6: on a committed Challenge, `into_results` consumes the Challenge,
zeroizes `cached_random` in place, and returns the `result` field — which
every `commit` sets to exactly the output of the computation run it just
performed. -/
theorem into_results_returns_committed_result :
    ∀ ch : Challenge, ch.committed = true →
      (ch.into_results
        = some (ch.result, { ch with cached_random := zeroize ch.cached_random }))
      ∧ ∀ hash : List Nat → List Nat,
          ((ch.commit hash).2.result = compOut ch.computation ch.rng.inner
           ∧ (ch.commit hash).2.committed = true) := by
  intro ch h
  constructor
  · simp [Challenge.into_results, h]
  · intro hash
    obtain ⟨⟨inner, recorded⟩, comp, result, cached, cflag⟩ := ch
    simp [Challenge.commit, runRecording_eq]

/-- Witness for C6: finalising a concrete committed state. -/
theorem into_results_returns_committed_result_instance :
    chW.into_results = some ([3, 4], { chW with cached_random := zeroize [7] }) :=
  (into_results_returns_committed_result chW rfl).1

/-- C1: honest round-trip.  For every computation drawing randomness only
through the fill interface and every digest, committing and then challenging
yields revealed bytes on which `check_commitment` (with the same computation
and digest) succeeds. -/
theorem honest_round_trip (ch : Challenge) (hash : List Nat → List Nat)
    (h : ch.rng.recorded = []) :
    ((ch.commit hash).2.challenge).map
        (fun p => check_commitment hash (ch.commit hash).1 p.1 ch.computation)
      = some (Except.ok ()) := by
  obtain ⟨⟨inner, recorded⟩, comp, result, cached, cflag⟩ := ch
  simp only at h
  subst h
  simp [Challenge.commit, runRecording_eq, RecordingRng.fetch_recorded,
    Challenge.challenge, check_commitment, PlaybackRng.new, runPlayback_replay_nil]

/-- Witness for C1: a concrete honest commit / challenge / check round. -/
theorem honest_round_trip_instance :
    (((Challenge.new innerW (Comp.fill 8 Comp.ret)).commit (fun l => 7 :: l)).2.challenge).map
        (fun p => check_commitment (fun l => 7 :: l)
          ((Challenge.new innerW (Comp.fill 8 Comp.ret)).commit (fun l => 7 :: l)).1 p.1
          (Challenge.new innerW (Comp.fill 8 Comp.ret)).computation)
      = some (Except.ok ()) :=
  honest_round_trip (Challenge.new innerW (Comp.fill 8 Comp.ret)) (fun l => 7 :: l) rfl

/-- C9: commit determinism under fixed randomness — running a computation
through the replay path twice over fresh `PlaybackRng`s loaded with the same
bytes yields byte-identical results and identical digests. -/
theorem replay_deterministic (comp : Comp) (bytes1 bytes2 : List Nat)
    (hash : List Nat → List Nat) (h : bytes1 = bytes2) :
    (runPlayback comp (PlaybackRng.new bytes1)).1
      = (runPlayback comp (PlaybackRng.new bytes2)).1
    ∧ hash (runPlayback comp (PlaybackRng.new bytes1)).1
        = hash (runPlayback comp (PlaybackRng.new bytes2)).1 := by
  subst h
  exact ⟨rfl, rfl⟩

/-- Witness for C9: two replays of a concrete computation over the same four
bytes agree. -/
theorem replay_deterministic_instance :
    (runPlayback (Comp.fill 4 Comp.ret) (PlaybackRng.new [1, 2, 3, 4])).1
      = (runPlayback (Comp.fill 4 Comp.ret) (PlaybackRng.new [1, 2, 3, 4])).1 :=
  (replay_deterministic (Comp.fill 4 Comp.ret) [1, 2, 3, 4] [1, 2, 3, 4] (fun l => l) rfl).1

/-- Counterexample to C2: a computation that draws 16 bytes while only 9 were
revealed does not make `check_commitment` fail with an InsufficientRandomness
condition — the crate's `Error` enum has no such variant.  The missing bytes
are silently zero-padded: with a commitment equal to the digest of the
zero-padded rerun, `check_commitment` returns `Ok`. -/
theorem check_commitment_zero_pads_accepts :
    playbackDraws (Comp.fill 16 Comp.ret) (PlaybackRng.new [1, 2, 3, 4, 5, 6, 7, 8, 9]) = 16
    ∧ ([1, 2, 3, 4, 5, 6, 7, 8, 9] : List Nat).length = 9
    ∧ check_commitment (fun l => l)
        ([1, 2, 3, 4, 5, 6, 7, 8, 9] ++ List.replicate 7 0)
        [1, 2, 3, 4, 5, 6, 7, 8, 9] (Comp.fill 16 Comp.ret) = Except.ok () :=
  ⟨rfl, rfl, rfl⟩

/-- C2 as amended: `check_commitment` surfaces no InsufficientRandomness
condition.  It runs the computation with the unchecked, zero-padding fill,
succeeds exactly when the digest of the rerun equals the commitment, and its
only failure value is `VerificationFailed`. -/
theorem check_commitment_error_taxonomy (hash : List Nat → List Nat)
    (commitment revealed : List Nat) (comp : Comp) :
    (check_commitment hash commitment revealed comp = Except.ok ()
      ↔ hash (runPlayback comp (PlaybackRng.new revealed)).1 = commitment)
    ∧ (check_commitment hash commitment revealed comp = Except.ok ()
       ∨ check_commitment hash commitment revealed comp
           = Except.error Error.VerificationFailed) := by
  unfold check_commitment
  by_cases h : hash (runPlayback comp (PlaybackRng.new revealed)).1 = commitment
  · simp [h]
  · simp [h]

/-- Witness for the amended C2: a concrete check that succeeds because the
digest of the rerun equals the commitment. -/
theorem check_commitment_error_taxonomy_instance :
    check_commitment (fun l => l) [0] [] (Comp.fill 1 Comp.ret) = Except.ok () :=
  (check_commitment_error_taxonomy (fun l => l) [0] [] (Comp.fill 1 Comp.ret)).1.mpr rfl

end Benaloh
